import Mathlib

/-!
# Verification of the telegram-logger-bot persistence pipeline

Shallow embedding of the repository's storage layer (`src/db.py`) and event
handlers (`src/handlers.py`).  Python dicts used as JSON payloads are modelled
as association lists of key / optional-value pairs; SQLite tables are modelled
as in-memory lists; the SQL-side `datetime('now')` default columns
(`updated_at`, `created_at`) are not modelled, as no verified property
mentions them.
-/

namespace TgLogger

/-- A JSON scalar value as produced by the handlers (strings and integers). -/
inductive JVal where
  | str (s : String)
  | int (n : Int)
deriving DecidableEq

/-- A Python dict whose values are JSON scalars or `None` (modelled `none`),
in insertion order, as handed to `json.dumps`. -/
abbrev JMap := List (String × Option JVal)

/-- Minimal JSON string quoting (escapes backslash and double quote; the
control-character escapes of `json.dumps` are not needed for any payload
produced by this program). -/
def jsonQuote (s : String) : String :=
  "\"" ++ String.join (s.data.map (fun c =>
    if c = '\\' then "\\\\" else if c = '"' then "\\\"" else String.singleton c)) ++ "\""

/-- Serialization of one optional scalar, as `json.dumps` renders it. -/
def jsonValStr : Option JVal → String
  | none => "null"
  | some (JVal.str s) => jsonQuote s
  | some (JVal.int n) => toString n

/-- `json.dumps` on a dict, with the default `", "` / `": "` separators
(`ensure_ascii=False` keeps non-ASCII text verbatim, as modelled). -/
def jsonDumps (m : JMap) : String :=
  "\x7b" ++ String.intercalate ", "
    (m.map (fun kv => jsonQuote kv.1 ++ ": " ++ jsonValStr kv.2)) ++ "\x7d"

/-! ## Storage layer (`src/db.py`) -/

/-- A row of the `chats` table (minus the unmodelled `updated_at`). -/
structure ChatRow where
  title : Option String
  ctype : Option String
deriving DecidableEq

/-- A row of the `users` table (minus the unmodelled `updated_at`). -/
structure UserRow where
  username : Option String
  firstName : Option String
  lastName : Option String
deriving DecidableEq

/-- A row of the `messages` table (minus the surrogate `id` and
`created_at`); `mediaMeta` holds the serialized JSON blob or SQL NULL. -/
structure MessageRow where
  msgId : Int
  chatId : Int
  userId : Option Int
  date : String
  mtype : String
  text : Option String
  mediaFileId : Option String
  mediaMeta : Option String
  replyTo : Option Int
  fwdFrom : Option Int
  fwdName : Option String
  isEdit : Bool
deriving DecidableEq

/-- A row of the `events` table (minus the surrogate `id` and `created_at`). -/
structure EventRow where
  chatId : Int
  userId : Option Int
  etype : String
  data : Option String
  date : String
deriving DecidableEq

/-- The four tables of the SQLite database, plus the set of media files
written to disk and a counter of executed commits (the durability points). -/
structure Db where
  chats : List (Int × ChatRow)
  users : List (Int × UserRow)
  messages : List MessageRow
  events : List EventRow
  files : List String
  commits : Nat
deriving DecidableEq

/-- The empty database produced by `init_db` on a fresh file. -/
def emptyDb : Db := ⟨[], [], [], [], [], 0⟩

/-- `INSERT ... ON CONFLICT(key) DO UPDATE`: replace the row when the key is
present, append it otherwise.  Shared shape of `upsert_chat`/`upsert_user`. -/
def upsertRow {α : Type} (t : List (Int × α)) (k : Int) (v : α) : List (Int × α) :=
  if t.any (fun r => r.1 == k) then
    t.map (fun r => if r.1 == k then (k, v) else r)
  else
    t ++ [(k, v)]

/-- `upsert_chat` from `src/db.py`: keyed by `chat_id`, refreshes title and
type unconditionally. -/
def upsert_chat (t : List (Int × ChatRow)) (chatId : Int)
    (title ctype : Option String) : List (Int × ChatRow) :=
  upsertRow t chatId ⟨title, ctype⟩

/-- `upsert_user` from `src/db.py`: keyed by `user_id`. -/
def upsert_user (t : List (Int × UserRow)) (userId : Int)
    (username firstName lastName : Option String) : List (Int × UserRow) :=
  upsertRow t userId ⟨username, firstName, lastName⟩

/-- The dict comprehension of `insert_message`:
`{k: v for k, v in media_meta.items() if v is not None}`. -/
def stripNulls (mm : JMap) : JMap :=
  mm.filter (fun kv => kv.2.isSome)

/-- The `media_meta` serialization of `insert_message`: `None` and the empty
dict are Python-falsy and store SQL NULL; otherwise null-valued keys are
dropped before `json.dumps`. -/
def message_meta_json : Option JMap → Option String
  | none => none
  | some mm =>
    if mm.isEmpty then none
    else some (jsonDumps (stripNulls mm))

/-- The `data` serialization of `insert_event`: falsy stores SQL NULL,
otherwise the dict is serialized verbatim (nulls kept). -/
def event_data_json : Option JMap → Option String
  | none => none
  | some d => if d.isEmpty then none else some (jsonDumps d)

/-- `insert_message` from `src/db.py`: appends one row to `messages`. -/
def insert_message (db : Db) (msgId chatId : Int) (userId : Option Int)
    (date mtype : String) (text mediaFileId : Option String)
    (mediaMeta : Option JMap) (replyTo fwdFrom : Option Int)
    (fwdName : Option String) (isEdit : Bool) : Db :=
  { db with messages := db.messages ++
      [⟨msgId, chatId, userId, date, mtype, text, mediaFileId,
        message_meta_json mediaMeta, replyTo, fwdFrom, fwdName, isEdit⟩] }

/-- `insert_event` from `src/db.py`: appends one row to `events`. -/
def insert_event (db : Db) (chatId : Int) (etype date : String)
    (userId : Option Int) (data : Option JMap) : Db :=
  { db with events := db.events ++
      [⟨chatId, userId, etype, event_data_json data, date⟩] }

/-- `commit` from `src/db.py`: the durability point for one inbound event. -/
def commit (db : Db) : Db :=
  { db with commits := db.commits + 1 }

/-! ## Inbound event model (the aiogram `Message` fields the handlers read) -/

/-- A Telegram user as exposed by aiogram: `first_name` is required,
`username` and `last_name` are optional. -/
structure TgUser where
  id : Int
  username : Option String
  firstName : String
  lastName : Option String
deriving DecidableEq

/-- aiogram's `User.full_name`: first name, plus the last name when present. -/
def TgUser.fullName (u : TgUser) : String :=
  match u.lastName with
  | some l => u.firstName ++ " " ++ l
  | none => u.firstName

/-- A Telegram chat: `type` is required, `title` is optional (absent for
private chats). -/
structure TgChat where
  id : Int
  title : Option String
  ctype : String
deriving DecidableEq

/-- aiogram's `MessageOrigin` union: exactly the four provenance kinds. -/
inductive MsgOrigin where
  | user (senderUser : TgUser)
  | hiddenUser (senderUserName : String)
  | chat (senderChat : TgChat)
  | channel (chat : TgChat)
deriving DecidableEq

/-- One resolution entry of a photo (`PhotoSize`): `file_size` is optional. -/
structure PhotoSize where
  fileId : String
  fileSize : Option Int
  width : Int
  height : Int
deriving DecidableEq

/-- aiogram `Video`. -/
structure Video where
  fileId : String
  fileSize : Option Int
  mimeType : Option String
  fileName : Option String
  duration : Int
  width : Int
  height : Int
deriving DecidableEq

/-- aiogram `Document`. -/
structure Document where
  fileId : String
  fileSize : Option Int
  mimeType : Option String
  fileName : Option String
deriving DecidableEq

/-- aiogram `Audio`. -/
structure Audio where
  fileId : String
  fileSize : Option Int
  mimeType : Option String
  fileName : Option String
  duration : Int
deriving DecidableEq

/-- aiogram `Voice`. -/
structure Voice where
  fileId : String
  fileSize : Option Int
  mimeType : Option String
  duration : Int
deriving DecidableEq

/-- aiogram `VideoNote`. -/
structure VideoNote where
  fileId : String
  fileSize : Option Int
  duration : Int
  length : Int
deriving DecidableEq

/-- aiogram `Sticker` (the fields the handler reads). -/
structure Sticker where
  fileId : String
  emoji : Option String
  setName : Option String
  width : Int
  height : Int
deriving DecidableEq

/-- aiogram `Animation`. -/
structure Animation where
  fileId : String
  fileSize : Option Int
  mimeType : Option String
  fileName : Option String
  duration : Int
  width : Int
  height : Int
deriving DecidableEq

/-- The `ContentType` tag of an inbound message (aiogram's enum restricted to
the members this program distinguishes; everything else is `unknown`). -/
inductive ContentKind where
  | photo | video | document | audio | voice | videoNote | sticker | animation
  | text | newChatMembers | leftChatMember | newChatTitle | pinnedMessage
  | unknown
deriving DecidableEq

/-- Python `str()` of the aiogram `ContentType` enum member (a `str, Enum`
mixin, so `str` yields the qualified member name). -/
def strOfContent : ContentKind → String
  | ContentKind.photo => "ContentType.PHOTO"
  | ContentKind.video => "ContentType.VIDEO"
  | ContentKind.document => "ContentType.DOCUMENT"
  | ContentKind.audio => "ContentType.AUDIO"
  | ContentKind.voice => "ContentType.VOICE"
  | ContentKind.videoNote => "ContentType.VIDEO_NOTE"
  | ContentKind.sticker => "ContentType.STICKER"
  | ContentKind.animation => "ContentType.ANIMATION"
  | ContentKind.text => "ContentType.TEXT"
  | ContentKind.newChatMembers => "ContentType.NEW_CHAT_MEMBERS"
  | ContentKind.leftChatMember => "ContentType.LEFT_CHAT_MEMBER"
  | ContentKind.newChatTitle => "ContentType.NEW_CHAT_TITLE"
  | ContentKind.pinnedMessage => "ContentType.PINNED_MESSAGE"
  | ContentKind.unknown => "ContentType.UNKNOWN"

/-- The aiogram `Message` fields read by the handlers.  `message.date` is
carried already ISO-formatted (only `date.isoformat()` is ever used);
`reply_to_message` and `pinned_message` are reduced to the sole field read,
their `message_id`; `photo` being `None` and being `[]` are both Python-falsy
and are identified as `[]`. -/
structure TgMessage where
  messageId : Int
  chat : TgChat
  fromUser : Option TgUser
  date : String
  contentType : ContentKind
  text : Option String
  caption : Option String
  replyTo : Option Int
  forwardOrigin : Option MsgOrigin
  photo : List PhotoSize
  video : Option Video
  document : Option Document
  audio : Option Audio
  voice : Option Voice
  videoNote : Option VideoNote
  sticker : Option Sticker
  animation : Option Animation
  newChatMembers : List TgUser
  leftChatMember : Option TgUser
  newChatTitle : Option String
  pinnedMessageId : Option Int
deriving DecidableEq

/-- The configuration the handlers consume: the download flag and the media
directory path. -/
structure Config where
  downloadMedia : Bool
  mediaDir : String
deriving DecidableEq

/-! ## Event classifier (`src/handlers.py`) -/

/-- `_extract_forward_info`: maps the optional `forward_origin` to
`(fwd_from, fwd_name)`.  (aiogram's `MessageOrigin` is exactly the union of
the four matched classes, so the Python function's trailing
`return None, None` after the `isinstance` chain is unreachable.) -/
def extract_forward_info : Option MsgOrigin → Option Int × Option String
  | none => (none, none)
  | some (MsgOrigin.user u) => (some u.id, some u.fullName)
  | some (MsgOrigin.hiddenUser n) => (none, some n)
  | some (MsgOrigin.chat c) => (some c.id, c.title)
  | some (MsgOrigin.channel c) => (some c.id, c.title)

/-- The metadata dict built for the photo branch of `_extract_media_meta`. -/
def photoMeta (p : PhotoSize) : JMap :=
  [("size", p.fileSize.map JVal.int),
   ("width", some (JVal.int p.width)),
   ("height", some (JVal.int p.height))]

/-- `_extract_media_meta`: per-kind `(file_id, media_meta, type_string)`
extraction.  Each Python branch requires both the matching `content_type` and
a truthy media sub-object, so at most one branch fires and a missing
sub-object falls through to `(None, None, str(content_type))`.  The photo
branch takes `message.photo[-1]` (the last list element). -/
def extract_media_meta (m : TgMessage) : Option String × Option JMap × String :=
  match m.contentType with
  | ContentKind.photo =>
    match m.photo.getLast? with
    | some p => (some p.fileId, some (photoMeta p), "photo")
    | none => (none, none, strOfContent m.contentType)
  | ContentKind.video =>
    match m.video with
    | some v =>
      (some v.fileId,
       some [("size", v.fileSize.map JVal.int),
             ("mime", v.mimeType.map JVal.str),
             ("name", v.fileName.map JVal.str),
             ("duration", some (JVal.int v.duration)),
             ("width", some (JVal.int v.width)),
             ("height", some (JVal.int v.height))], "video")
    | none => (none, none, strOfContent m.contentType)
  | ContentKind.document =>
    match m.document with
    | some d =>
      (some d.fileId,
       some [("size", d.fileSize.map JVal.int),
             ("mime", d.mimeType.map JVal.str),
             ("name", d.fileName.map JVal.str)], "document")
    | none => (none, none, strOfContent m.contentType)
  | ContentKind.audio =>
    match m.audio with
    | some a =>
      (some a.fileId,
       some [("size", a.fileSize.map JVal.int),
             ("mime", a.mimeType.map JVal.str),
             ("name", a.fileName.map JVal.str),
             ("duration", some (JVal.int a.duration))], "audio")
    | none => (none, none, strOfContent m.contentType)
  | ContentKind.voice =>
    match m.voice with
    | some v =>
      (some v.fileId,
       some [("size", v.fileSize.map JVal.int),
             ("mime", v.mimeType.map JVal.str),
             ("duration", some (JVal.int v.duration))], "voice")
    | none => (none, none, strOfContent m.contentType)
  | ContentKind.videoNote =>
    match m.videoNote with
    | some vn =>
      (some vn.fileId,
       some [("size", vn.fileSize.map JVal.int),
             ("duration", some (JVal.int vn.duration)),
             ("length", some (JVal.int vn.length))], "video_note")
    | none => (none, none, strOfContent m.contentType)
  | ContentKind.sticker =>
    match m.sticker with
    | some s =>
      (some s.fileId,
       some [("emoji", s.emoji.map JVal.str),
             ("set_name", s.setName.map JVal.str),
             ("width", some (JVal.int s.width)),
             ("height", some (JVal.int s.height))], "sticker")
    | none => (none, none, strOfContent m.contentType)
  | ContentKind.animation =>
    match m.animation with
    | some a =>
      (some a.fileId,
       some [("size", a.fileSize.map JVal.int),
             ("mime", a.mimeType.map JVal.str),
             ("name", a.fileName.map JVal.str),
             ("duration", some (JVal.int a.duration)),
             ("width", some (JVal.int a.width)),
             ("height", some (JVal.int a.height))], "animation")
    | none => (none, none, strOfContent m.contentType)
  | k => (none, none, strOfContent k)

/-- Python `re`'s `\w` on a `str` pattern (Unicode-aware: alphanumerics in
any script plus the underscore).  Faithful on U+0000..U+00FF via the Unicode
word characters of Latin-1 (ª µ ² ³ ¹ º ¼ ½ ¾ and the letters of
U+00C0..U+00FF minus × ÷); codepoints above U+00FF are approximated as word
characters (true for the ordinary letters arising here — no verified
property depends on that region). -/
def pythonWordChar (c : Char) : Bool :=
  c.isAlphanum || c == '_' ||
  c.toNat == 0xAA || c.toNat == 0xB2 || c.toNat == 0xB3 || c.toNat == 0xB5 ||
  c.toNat == 0xB9 || c.toNat == 0xBA ||
  (0xBC ≤ c.toNat && c.toNat ≤ 0xBE) ||
  (0xC0 ≤ c.toNat && c.toNat ≤ 0xFF && !(c.toNat == 0xD7) && !(c.toNat == 0xF7)) ||
  0x100 ≤ c.toNat

/-- A character kept verbatim by `_sanitize_filename`'s regex class
`[\w\-.]` (everything else is replaced by `_`). -/
def keepChar (c : Char) : Bool :=
  pythonWordChar c || c == '-' || c == '.'

/-- POSIX `os.path.basename`: the longest suffix containing no `/`. -/
def pyBasename (s : List Char) : List Char :=
  ((s.reverse.takeWhile (fun c => c ≠ '/')).reverse)

/-- `_sanitize_filename` on the character list of the input:
`os.path.basename` followed by `re.sub(r'[^\w\-.]', '_', name)`. -/
def sanitize_filename (s : List Char) : List Char :=
  (pyBasename s).map (fun c => if keepChar c then c else '_')

/-- `_sanitize_filename` as a `String` transformer. -/
def sanitizeFilenameStr (s : String) : String :=
  ⟨sanitize_filename s.data⟩

/-! ## Dispatch pipeline (`src/handlers.py` handlers) -/

/-- `_save_chat_and_user`: upsert the chat, and the sender when present. -/
def save_chat_and_user (db : Db) (m : TgMessage) : Db :=
  let db1 := { db with chats := upsert_chat db.chats m.chat.id m.chat.title (some m.chat.ctype) }
  match m.fromUser with
  | some u =>
    { db1 with users := upsert_user db1.users u.id u.username (some u.firstName) u.lastName }
  | none => db1

/-- `_log_message`: forward-info extraction, one `insert_message`, then
`commit`. -/
def log_message (db : Db) (m : TgMessage) (mtype : String)
    (text mediaFileId : Option String) (mediaMeta : Option JMap)
    (isEdit : Bool) : Db :=
  let fwd := extract_forward_info m.forwardOrigin
  commit (insert_message db m.messageId m.chat.id (m.fromUser.map (fun u => u.id))
    m.date mtype text mediaFileId mediaMeta m.replyTo fwd.1 fwd.2 isEdit)

/-- The `on_text` handler body (the happy path inside its `try`). -/
def on_text (db : Db) (m : TgMessage) : Db :=
  log_message (save_chat_and_user db m) m "text" m.text none none false

/-- The local destination path of a downloaded media file:
`os.path.join(media_dir, f"{chat_id}_{message_id}_{safe_name}")` where
`safe_name` sanitizes the last `/`-separated segment of the remote
`file_path` (the join is plain concatenation: the right operand never starts
with `/`). -/
def mediaDest (cfg : Config) (chatId msgId : Int) (remotePath : String) : String :=
  let safeName := sanitizeFilenameStr ⟨pyBasename remotePath.data⟩
  cfg.mediaDir ++ "/" ++ toString chatId ++ "_" ++ toString msgId ++ "_" ++ safeName

/-- The `on_media` handler body.  The network fetch is modelled by its
outcome `download`: `some remotePath` when `get_file`/`download_file`
succeed (the file lands at `mediaDest`), `none` when any step of the inner
`try` raises — that exception is logged and swallowed, so control reaches
`_log_message` either way. -/
def on_media (cfg : Config) (db : Db) (m : TgMessage)
    (download : Option String) : Db :=
  let db1 := save_chat_and_user db m
  let ext := extract_media_meta m
  let db2 :=
    if cfg.downloadMedia && ext.1.isSome then
      match download with
      | some remotePath =>
        { db1 with files := db1.files ++ [mediaDest cfg m.chat.id m.messageId remotePath] }
      | none => db1
    else db1
  log_message db2 m ext.2.2 m.caption ext.1 ext.2.1 false

/-- The `data` dict `{"username": ..., "first_name": ...}` built for
`member_joined` and `member_left` events. -/
def memberData (u : TgUser) : JMap :=
  [("username", u.username.map JVal.str),
   ("first_name", some (JVal.str u.firstName))]

/-- The fan-out loop of `on_service` over `message.new_chat_members`:
for each member, `upsert_user` then one `member_joined` event. -/
def processNewMembers (db : Db) (chatId : Int) (date : String) :
    List TgUser → Db
  | [] => db
  | u :: rest =>
    let db1 := { db with users := upsert_user db.users u.id u.username (some u.firstName) u.lastName }
    let db2 := insert_event db1 chatId "member_joined" date (some u.id) (some (memberData u))
    processNewMembers db2 chatId date rest

/-- The `on_service` handler body: the `if`/`elif` chain over the service
sub-fields (`new_chat_members` truthy means non-empty; `new_chat_title`
truthy means present and non-empty), followed by one `commit`. -/
def on_service (db : Db) (m : TgMessage) : Db :=
  let db1 := save_chat_and_user db m
  let db2 :=
    if m.newChatMembers.isEmpty then
      match m.leftChatMember with
      | some u =>
        insert_event db1 m.chat.id "member_left" m.date (some u.id) (some (memberData u))
      | none =>
        match m.newChatTitle with
        | some t =>
          if t == "" then
            match m.pinnedMessageId with
            | some pid =>
              insert_event db1 m.chat.id "message_pinned" m.date
                (m.fromUser.map (fun u => u.id)) (some [("pinned_message_id", some (JVal.int pid))])
            | none => db1
          else
            let db' := { db1 with chats := upsert_chat db1.chats m.chat.id (some t) (some m.chat.ctype) }
            insert_event db' m.chat.id "title_changed" m.date
              (m.fromUser.map (fun u => u.id)) (some [("new_title", some (JVal.str t))])
        | none =>
          match m.pinnedMessageId with
          | some pid =>
            insert_event db1 m.chat.id "message_pinned" m.date
              (m.fromUser.map (fun u => u.id)) (some [("pinned_message_id", some (JVal.int pid))])
          | none => db1
    else
      processNewMembers db1 m.chat.id m.date m.newChatMembers
  commit db2

/-- The `on_edited_text` handler body: like `on_text` with `is_edit=True`. -/
def on_edited_text (db : Db) (m : TgMessage) : Db :=
  log_message (save_chat_and_user db m) m "text" m.text none none true

/-- The `on_edited_media` handler body: media extraction with
`is_edit=True`; no download step. -/
def on_edited_media (db : Db) (m : TgMessage) : Db :=
  let db1 := save_chat_and_user db m
  let ext := extract_media_meta m
  log_message db1 m ext.2.2 m.caption ext.1 ext.2.1 true

/-- The catch-all `on_other` handler body: type `"other"`, text
`str(message.content_type)`. -/
def on_other (db : Db) (m : TgMessage) : Db :=
  log_message (save_chat_and_user db m) m "other" (some (strOfContent m.contentType)) none none false

/-- One inbound event as routed to a handler (for media, tagged with the
outcome of the optional download step). -/
inductive Inbound where
  | text (m : TgMessage)
  | media (m : TgMessage) (download : Option String)
  | service (m : TgMessage)
  | editedText (m : TgMessage)
  | editedMedia (m : TgMessage)
  | other (m : TgMessage)
deriving DecidableEq

/-- Dispatch of one inbound event to its handler body. -/
def handle (cfg : Config) (db : Db) : Inbound → Db
  | Inbound.text m => on_text db m
  | Inbound.media m download => on_media cfg db m download
  | Inbound.service m => on_service db m
  | Inbound.editedText m => on_edited_text db m
  | Inbound.editedMedia m => on_edited_media db m
  | Inbound.other m => on_other db m

/-! ## Generic facts about `upsertRow` tables -/

/-- Key presence in a table (SQL `EXISTS (SELECT 1 ... WHERE key = k)`). -/
def hasKey {α : Type} (t : List (Int × α)) (k : Int) : Bool :=
  t.any (fun r => r.1 == k)

theorem hasKey_upsertRow_self {α : Type} (t : List (Int × α)) (k : Int) (v : α) :
    hasKey (upsertRow t k v) k = true := by
  unfold hasKey upsertRow
  split
  · next h =>
    rcases List.any_eq_true.mp h with ⟨r, hr, hrk⟩
    refine List.any_eq_true.mpr ⟨(k, v), List.mem_map.mpr ⟨r, hr, ?_⟩, by simp⟩
    simp only [hrk, if_true]
  · simp

theorem hasKey_upsertRow_mono {α : Type} (t : List (Int × α)) (k j : Int) (v : α)
    (h : hasKey t j = true) : hasKey (upsertRow t k v) j = true := by
  unfold hasKey upsertRow
  rcases List.any_eq_true.mp h with ⟨r, hr, hrj⟩
  split
  · by_cases hk : (r.1 == k) = true
    · refine List.any_eq_true.mpr ⟨(k, v), List.mem_map.mpr ⟨r, hr, ?_⟩, ?_⟩
      · simp only [hk, if_true]
      · have h1 : r.1 = k := eq_of_beq hk
        have h2 : r.1 = j := eq_of_beq hrj
        have hkj : k = j := by rw [← h1]; exact h2
        simp [hkj]
    · refine List.any_eq_true.mpr ⟨r, List.mem_map.mpr ⟨r, hr, ?_⟩, hrj⟩
      simp only [hk]
      simp
  · exact List.any_eq_true.mpr ⟨r, List.mem_append_left _ hr, hrj⟩

theorem keys_nodup_upsertRow {α : Type} (t : List (Int × α)) (k : Int) (v : α)
    (h : (t.map Prod.fst).Nodup) :
    ((upsertRow t k v).map Prod.fst).Nodup := by
  unfold upsertRow
  split
  · have heq : (t.map (fun r => if r.1 == k then (k, v) else r)).map Prod.fst
        = t.map Prod.fst := by
      rw [List.map_map]
      refine List.map_congr_left ?_
      intro r _
      by_cases hk : (r.1 == k) = true
      · have h1 : r.1 = k := eq_of_beq hk
        simp [Function.comp, hk, h1]
      · simp [Function.comp, hk]
    rw [heq]
    exact h
  · next hany =>
    rw [List.map_append]
    refine List.Nodup.append h (List.nodup_singleton k) ?_
    intro a ha hb
    rcases List.mem_map.mp ha with ⟨r, hr, hrk⟩
    have hb' : a = k := by simpa using hb
    have hcontra : t.any (fun r => r.1 == k) = true :=
      List.any_eq_true.mpr ⟨r, hr, by simp [hrk, hb']⟩
    simp [hcontra] at hany

theorem filter_key_of_not_hasKey {α : Type} (t : List (Int × α)) (k : Int)
    (h : hasKey t k = false) :
    t.filter (fun r => r.1 == k) = [] := by
  refine List.filter_eq_nil_iff.mpr ?_
  intro r hr
  have := List.any_eq_false.mp h r hr
  simpa using this

theorem filter_key_singleton {α : Type} (t : List (Int × α)) (k : Int)
    (hnd : (t.map Prod.fst).Nodup) (hany : hasKey t k = true) :
    ∃ r0 : Int × α, t.filter (fun r => r.1 == k) = [r0] ∧ r0.1 = k := by
  induction t with
  | nil => simp [hasKey] at hany
  | cons r rest ih =>
    rw [List.map_cons, List.nodup_cons] at hnd
    by_cases hk : (r.1 == k) = true
    · refine ⟨r, ?_, eq_of_beq hk⟩
      have hkr : r.1 = k := eq_of_beq hk
      have hrest : hasKey rest k = false := by
        cases hc : rest.any (fun r => r.1 == k)
        · unfold hasKey
          exact hc
        · exfalso
          rcases List.any_eq_true.mp hc with ⟨x, hx, hxk⟩
          have hxk' : x.1 = k := eq_of_beq hxk
          have hmem : x.1 ∈ rest.map Prod.fst := List.mem_map_of_mem Prod.fst hx
          rw [hxk', ← hkr] at hmem
          exact hnd.1 hmem
      rw [List.filter_cons_of_pos (by simpa using hk),
        filter_key_of_not_hasKey rest k hrest]
    · have hany' : hasKey rest k = true := by
        have hk' : (r.1 == k) = false := by simpa using hk
        rw [hasKey, List.any_cons, hk'] at hany
        unfold hasKey
        rw [Bool.false_or] at hany
        exact hany
      rcases ih hnd.2 hany' with ⟨r0, hr0, hr0k⟩
      exact ⟨r0, by rw [List.filter_cons_of_neg (by simpa using hk)]; exact hr0, hr0k⟩

theorem filter_key_upsertRow {α : Type} (t : List (Int × α)) (k : Int) (v : α)
    (hnd : (t.map Prod.fst).Nodup) :
    (upsertRow t k v).filter (fun r => r.1 == k) = [(k, v)] := by
  unfold upsertRow
  split
  · next hany =>
    have hcomp : ((fun r : Int × α => r.1 == k) ∘
        (fun r : Int × α => if r.1 == k then (k, v) else r))
        = (fun r : Int × α => r.1 == k) := by
      funext r
      by_cases hk : (r.1 == k) = true
      · simp [Function.comp, hk]
      · simp [Function.comp, hk]
    rw [List.filter_map, hcomp]
    rcases filter_key_singleton t k hnd hany with ⟨r0, hr0, hr0k⟩
    rw [hr0]
    simp [hr0k]
  · next hany =>
    have hany' : hasKey t k = false := by
      cases hc : t.any (fun r => r.1 == k)
      · unfold hasKey
        exact hc
      · exact absurd hc hany
    rw [List.filter_append, filter_key_of_not_hasKey t k hany']
    simp

/-! ## Facts about filename sanitization -/

/-- Membership in the character set `[A-Za-z0-9_.-]` that the spec names. -/
def specSafeChar (c : Char) : Bool :=
  ('A' ≤ c && c ≤ 'Z') || ('a' ≤ c && c ≤ 'z') || ('0' ≤ c && c ≤ '9') ||
  c == '_' || c == '.' || c == '-'

set_option maxRecDepth 4096 in
theorem ascii_keep_safe : ∀ n ∈ List.range 128,
    keepChar (Char.ofNat n) = false ∨ specSafeChar (Char.ofNat n) = true := by
  decide

theorem mem_of_mem_pyBasename (s : List Char) (b : Char) (hb : b ∈ pyBasename s) :
    b ∈ s := by
  unfold pyBasename at hb
  have h1 : b ∈ s.reverse.takeWhile (fun c => c ≠ '/') := List.mem_reverse.mp hb
  exact List.mem_reverse.mp ((List.takeWhile_sublist _).subset h1)

theorem keep_of_mem_sanitize (s : List Char) (c : Char)
    (hc : c ∈ sanitize_filename s) : keepChar c = true := by
  unfold sanitize_filename at hc
  rcases List.mem_map.mp hc with ⟨b, _, hbc⟩
  by_cases hk : keepChar b = true
  · rw [if_pos hk] at hbc
    rw [← hbc]
    exact hk
  · rw [if_neg hk] at hbc
    rw [← hbc]
    decide

theorem pyBasename_eq_self (l : List Char) (h : ∀ c ∈ l, c ≠ '/') :
    pyBasename l = l := by
  unfold pyBasename
  have heq : l.reverse.takeWhile (fun c => c ≠ '/') = l.reverse := by
    refine List.takeWhile_eq_self_iff.mpr ?_
    intro a ha
    simpa using h a (List.mem_reverse.mp ha)
  rw [heq, List.reverse_reverse]

/-- C2 counterexample: a chat-as-sender origin whose chat has no title is a
present origin of a recognized kind, yet forward-origin extraction returns a
null display name — refuting "returns a non-null display name whenever an
origin of any recognized kind is present". -/
theorem C2_counterexample :
    (⟨-5001, none, "group"⟩ : TgChat).title = none ∧
    extract_forward_info (some (MsgOrigin.chat ⟨-5001, none, "group"⟩))
      = (some (-5001), none) := by
  exact ⟨rfl, rfl⟩

/-- C2 (amended): forward-origin extraction returns `(null, null)` if and
only if no origin is present; it returns a non-null display name for
identifiable-user and hidden-user origins; for chat-as-sender and channel
origins it returns the origin chat's id together with its title, which is
null exactly when that chat has no title. -/
theorem C2_forward_origin :
    (∀ o : Option MsgOrigin, extract_forward_info o = (none, none) ↔ o = none) ∧
    (∀ u : TgUser,
      extract_forward_info (some (MsgOrigin.user u)) = (some u.id, some u.fullName)) ∧
    (∀ n : String,
      extract_forward_info (some (MsgOrigin.hiddenUser n)) = (none, some n)) ∧
    (∀ c : TgChat,
      extract_forward_info (some (MsgOrigin.chat c)) = (some c.id, c.title)) ∧
    (∀ c : TgChat,
      extract_forward_info (some (MsgOrigin.channel c)) = (some c.id, c.title)) := by
  refine ⟨?_, fun u => rfl, fun n => rfl, fun c => rfl, fun c => rfl⟩
  intro o
  constructor
  · intro h
    match o with
    | none => rfl
    | some (MsgOrigin.user u) => simp [extract_forward_info] at h
    | some (MsgOrigin.hiddenUser n) => simp [extract_forward_info] at h
    | some (MsgOrigin.chat c) => simp [extract_forward_info] at h
    | some (MsgOrigin.channel c) => simp [extract_forward_info] at h
  · intro h
    rw [h]
    rfl

/-- C3 counterexample: Python's `\w` is Unicode-aware, so the non-ASCII
letter `é` survives sanitization unchanged although it lies outside
`[A-Za-z0-9_.-]` — refuting "every character of the output is in
`[A-Za-z0-9_.-]`". -/
theorem C3_counterexample :
    sanitize_filename ['c', 'a', 'f', 'é', '.', 'j', 'p', 'g']
      = ['c', 'a', 'f', 'é', '.', 'j', 'p', 'g'] ∧
    specSafeChar 'é' = false := by
  decide

/-- C3 (amended): filename sanitization strips directory components and
replaces every character outside Python's Unicode word class plus `-` and
`.` with `_`; consequently, for inputs made of ASCII characters every
character of the output is in `[A-Za-z0-9_.-]`. -/
theorem C3_sanitize_ascii_safe (s : List Char) (h : ∀ c ∈ s, c.toNat < 128) :
    ∀ c ∈ sanitize_filename s, specSafeChar c = true := by
  intro c hc
  unfold sanitize_filename at hc
  rcases List.mem_map.mp hc with ⟨b, hb, hbc⟩
  have hbs : b ∈ s := mem_of_mem_pyBasename s b hb
  by_cases hk : keepChar b = true
  · rw [if_pos hk] at hbc
    rw [← hbc]
    have h128 : b.toNat ∈ List.range 128 := List.mem_range.mpr (h b hbs)
    have hsafe := ascii_keep_safe b.toNat h128
    rw [Char.ofNat_toNat] at hsafe
    rcases hsafe with hf | ht
    · rw [hk] at hf
      exact absurd hf (by simp)
    · exact ht
  · rw [if_neg hk] at hbc
    rw [← hbc]
    decide

/-- C3 witness: the amended theorem applied to the ASCII input `"a/b c"`. -/
theorem C3_witness :
    (∀ c ∈ ['a', '/', 'b', ' ', 'c'], c.toNat < 128) ∧
    ∀ c ∈ sanitize_filename ['a', '/', 'b', ' ', 'c'], specSafeChar c = true :=
  ⟨by decide, C3_sanitize_ascii_safe ['a', '/', 'b', ' ', 'c'] (by decide)⟩

/-- C4 counterexample: the input `"../.."` contains `"../"`, yet its
sanitization is `".."` (basename keeps the trailing `..`, and `.` is inside
the kept class), which still contains `".."` — refuting "for every input
containing `../` the output contains no `..`". -/
theorem C4_counterexample :
    List.IsInfix ['.', '.', '/'] ['.', '.', '/', '.', '.'] ∧
    sanitize_filename ['.', '.', '/', '.', '.'] = ['.', '.'] ∧
    List.IsInfix ['.', '.'] (sanitize_filename ['.', '.', '/', '.', '.']) := by
  refine ⟨⟨[], ['.', '.'], rfl⟩, by decide, ⟨[], [], by decide⟩⟩

/-- C4 (amended): filename sanitization is idempotent, and for every input
(whether or not it contains `../`) the output contains no `/`; the output
may however still contain `..`. -/
theorem C4_sanitize_idem_no_slash :
    (∀ s : List Char, sanitize_filename (sanitize_filename s) = sanitize_filename s) ∧
    (∀ s : List Char, '/' ∉ sanitize_filename s) := by
  have hns : ∀ s : List Char, '/' ∉ sanitize_filename s := by
    intro s hmem
    have := keep_of_mem_sanitize s '/' hmem
    simp [keepChar, pythonWordChar] at this
  refine ⟨?_, hns⟩
  intro s
  have h1 : pyBasename (sanitize_filename s) = sanitize_filename s :=
    pyBasename_eq_self _ (fun c hc hsl => hns s (hsl ▸ hc))
  calc sanitize_filename (sanitize_filename s)
      = (pyBasename (sanitize_filename s)).map
          (fun c => if keepChar c then c else '_') := rfl
    _ = (sanitize_filename s).map (fun c => if keepChar c then c else '_') := by
        rw [h1]
    _ = sanitize_filename s := by
        conv_rhs => rw [← List.map_id (sanitize_filename s)]
        refine List.map_congr_left ?_
        intro c hc
        rw [if_pos (keep_of_mem_sanitize s c hc)]
        rfl

/-- C5 (confirmed): for any non-empty metadata dict with distinct keys, the
blob stored by `insert_message` is the serialization of the null-stripped
dict — no key whose source value was null survives — while for any non-empty
data dict the blob stored by `insert_event` is the dict serialized verbatim,
nulls kept (the asymmetry). -/
theorem C5_meta_null_stripping (mm : JMap) (hnd : (mm.map Prod.fst).Nodup)
    (hmm : mm ≠ []) (d : JMap) (hd : d ≠ []) :
    message_meta_json (some mm) = some (jsonDumps (stripNulls mm)) ∧
    (∀ kv ∈ stripNulls mm, kv.2 ≠ none) ∧
    (∀ k, (k, (none : Option JVal)) ∈ mm → ∀ v, (k, v) ∉ stripNulls mm) ∧
    event_data_json (some d) = some (jsonDumps d) := by
  have hie : mm.isEmpty = false := by
    cases mm with
    | nil => exact absurd rfl hmm
    | cons a l => rfl
  have hde : d.isEmpty = false := by
    cases d with
    | nil => exact absurd rfl hd
    | cons a l => rfl
  refine ⟨by rw [message_meta_json, hie]; rfl, ?_, ?_, by rw [event_data_json, hde]; rfl⟩
  · intro kv hkv
    have hmem := List.mem_filter.mp hkv
    exact Option.ne_none_iff_isSome.mpr hmem.2
  · intro k hknone v hkv
    have hmem := List.mem_filter.mp hkv
    have heq := List.inj_on_of_nodup_map hnd hknone hmem.1 rfl
    have hv : v = none := by
      have := congrArg Prod.snd heq
      simpa using this.symm
    rw [hv] at hmem
    simp at hmem

/-- C5 witness: the theorem applied to the dict
`{"name": null, "size": 7}` and the event data `{"username": null}`. -/
theorem C5_witness :
    ((([("name", (none : Option JVal)), ("size", some (JVal.int 7))]).map Prod.fst).Nodup ∧
      ([("name", (none : Option JVal)), ("size", some (JVal.int 7))] : JMap) ≠ [] ∧
      ([("username", (none : Option JVal))] : JMap) ≠ []) ∧
    (message_meta_json (some [("name", none), ("size", some (JVal.int 7))])
        = some (jsonDumps (stripNulls [("name", none), ("size", some (JVal.int 7))])) ∧
      (∀ kv ∈ stripNulls [("name", none), ("size", some (JVal.int 7))], kv.2 ≠ none) ∧
      (∀ k, (k, (none : Option JVal)) ∈
          ([("name", none), ("size", some (JVal.int 7))] : JMap) →
        ∀ v, (k, v) ∉ stripNulls [("name", none), ("size", some (JVal.int 7))]) ∧
      event_data_json (some [("username", none)])
        = some (jsonDumps [("username", none)])) :=
  ⟨⟨by decide, by decide, by decide⟩,
    C5_meta_null_stripping [("name", none), ("size", some (JVal.int 7))]
      (by decide) (by decide) [("username", none)] (by decide)⟩

/-! ## C6: last-write-wins upserts -/

/-- A sequence of `upsert_chat` calls for one chat id, applied in order. -/
def applyChatWrites (t : List (Int × ChatRow)) (chatId : Int)
    (ws : List (Option String × Option String)) : List (Int × ChatRow) :=
  ws.foldl (fun acc w => upsert_chat acc chatId w.1 w.2) t

theorem keys_nodup_applyChatWrites (chatId : Int)
    (ws : List (Option String × Option String)) :
    ∀ t : List (Int × ChatRow), (t.map Prod.fst).Nodup →
      ((applyChatWrites t chatId ws).map Prod.fst).Nodup := by
  induction ws with
  | nil => intro t h; exact h
  | cons w rest ih =>
    intro t h
    exact ih (upsert_chat t chatId w.1 w.2) (keys_nodup_upsertRow t chatId ⟨w.1, w.2⟩ h)

/-- C6 (confirmed): starting from any chats table with distinct keys, any
non-empty sequence of `upsert_chat` calls for a chat id leaves exactly one
row for that id, holding the title and type of the last write. -/
theorem C6_upsert_last_write_wins (t : List (Int × ChatRow)) (chatId : Int)
    (ws : List (Option String × Option String)) (w : Option String × Option String)
    (hnd : (t.map Prod.fst).Nodup) :
    (applyChatWrites t chatId (ws ++ [w])).filter (fun r => r.1 == chatId)
      = [(chatId, ⟨w.1, w.2⟩)] := by
  have hfold : applyChatWrites t chatId (ws ++ [w])
      = upsert_chat (applyChatWrites t chatId ws) chatId w.1 w.2 := by
    unfold applyChatWrites
    rw [List.foldl_append]
    rfl
  rw [hfold]
  exact filter_key_upsertRow (applyChatWrites t chatId ws) chatId ⟨w.1, w.2⟩
    (keys_nodup_applyChatWrites chatId ws t hnd)

/-- C6 witness: two writes for chat `-1001` from the empty table converge to
the second write's title and type. -/
theorem C6_witness :
    ((([] : List (Int × ChatRow)).map Prod.fst).Nodup) ∧
    (applyChatWrites [] (-1001)
        ([(some "Old Name", some "group")] ++ [(some "New Name", some "supergroup")])).filter
        (fun r => r.1 == -1001)
      = [(-1001, ⟨some "New Name", some "supergroup"⟩)] :=
  ⟨by decide,
    C6_upsert_last_write_wins [] (-1001) [(some "Old Name", some "group")]
      (some "New Name", some "supergroup") (by decide)⟩

/-- C10 (confirmed): at the `insert_message`/`insert_event` interface an
absent or empty dict is stored as SQL NULL, while a non-empty metadata dict
whose values are all null is stored as the serialized empty object. -/
theorem C10_empty_vs_allnull (mm : JMap) (h1 : mm ≠ [])
    (h2 : ∀ kv ∈ mm, kv.2 = none) :
    message_meta_json none = none ∧
    message_meta_json (some []) = none ∧
    event_data_json none = none ∧
    event_data_json (some []) = none ∧
    message_meta_json (some mm) = some "\x7b\x7d" := by
  have hie : mm.isEmpty = false := by
    cases mm with
    | nil => exact absurd rfl h1
    | cons a l => rfl
  have hstrip : stripNulls mm = [] := by
    refine List.filter_eq_nil_iff.mpr ?_
    intro kv hkv
    rw [h2 kv hkv]
    simp
  refine ⟨rfl, rfl, rfl, rfl, ?_⟩
  rw [message_meta_json, hie]
  rw [if_neg (by simp), hstrip]
  rfl

/-- C10 witness: the theorem applied to the all-null dict `{"name": null}`. -/
theorem C10_witness :
    (([("name", (none : Option JVal))] : JMap) ≠ [] ∧
      ∀ kv ∈ ([("name", (none : Option JVal))] : JMap), kv.2 = none) ∧
    (message_meta_json none = none ∧
      message_meta_json (some []) = none ∧
      event_data_json none = none ∧
      event_data_json (some []) = none ∧
      message_meta_json (some [("name", none)]) = some "\x7b\x7d") :=
  ⟨⟨by decide, by decide⟩,
    C10_empty_vs_allnull [("name", none)] (by decide) (by decide)⟩

/-! ## C7: download failure does not block persistence -/

theorem save_chat_and_user_fields (db : Db) (m : TgMessage) :
    (save_chat_and_user db m).messages = db.messages ∧
    (save_chat_and_user db m).events = db.events ∧
    (save_chat_and_user db m).commits = db.commits ∧
    (save_chat_and_user db m).files = db.files := by
  unfold save_chat_and_user
  cases m.fromUser <;> exact ⟨rfl, rfl, rfl, rfl⟩

/-- The Message row `on_media` persists (non-edit path). -/
def mediaMessageRow (m : TgMessage) : MessageRow :=
  let ext := extract_media_meta m
  let fwd := extract_forward_info m.forwardOrigin
  ⟨m.messageId, m.chat.id, m.fromUser.map (fun u => u.id), m.date, ext.2.2,
    m.caption, ext.1, message_meta_json ext.2.1, m.replyTo, fwd.1, fwd.2, false⟩

theorem on_media_none_eq (cfg : Config) (db : Db) (m : TgMessage) :
    on_media cfg db m none
      = log_message (save_chat_and_user db m) m (extract_media_meta m).2.2
          m.caption (extract_media_meta m).1 (extract_media_meta m).2.1 false := by
  simp only [on_media, ite_self]

/-- C7 (confirmed): with the download flag enabled, a failed media fetch
(the swallowed inner exception, modelled `download = none`) still appends
the metadata-bearing Message row and performs the commit; the persisted
messages are the same as on a successful download. -/
theorem C7_download_failure_persists (cfg : Config) (db : Db) (m : TgMessage)
    (hdl : cfg.downloadMedia = true) :
    (on_media cfg db m none).messages = db.messages ++ [mediaMessageRow m] ∧
    (on_media cfg db m none).commits = db.commits + 1 ∧
    ∀ remotePath : String,
      (on_media cfg db m (some remotePath)).messages
        = (on_media cfg db m none).messages := by
  obtain ⟨h1, _, h3, _⟩ := save_chat_and_user_fields db m
  refine ⟨?_, ?_, ?_⟩
  · rw [on_media_none_eq]
    show (save_chat_and_user db m).messages ++ [mediaMessageRow m]
      = db.messages ++ [mediaMessageRow m]
    rw [h1]
  · rw [on_media_none_eq]
    show (save_chat_and_user db m).commits + 1 = db.commits + 1
    rw [h3]
  · intro remotePath
    rw [on_media_none_eq]
    unfold on_media
    by_cases hc : (cfg.downloadMedia && (extract_media_meta m).1.isSome) = true
    · simp only [hc, if_true]
      rfl
    · simp only [hc, if_false]
      rfl

/-- C7 witness: the theorem applied to a concrete photo message on the
empty database with downloads enabled. -/
theorem C7_witness :
    (Config.mk true "media").downloadMedia = true ∧
    (on_media (Config.mk true "media") emptyDb
        (TgMessage.mk 1 ⟨-1001, some "G", "supergroup"⟩
          (some ⟨100, some "u", "U", none⟩) "2026-02-22T10:00:00"
          ContentKind.photo none (some "cap") none none
          [⟨"p1", some 9, 3, 3⟩] none none none none none none none [] none none none)
        none).messages
      = emptyDb.messages ++
        [mediaMessageRow
          (TgMessage.mk 1 ⟨-1001, some "G", "supergroup"⟩
            (some ⟨100, some "u", "U", none⟩) "2026-02-22T10:00:00"
            ContentKind.photo none (some "cap") none none
            [⟨"p1", some 9, 3, 3⟩] none none none none none none none [] none none none)] :=
  ⟨rfl,
    (C7_download_failure_persists (Config.mk true "media") emptyDb
      (TgMessage.mk 1 ⟨-1001, some "G", "supergroup"⟩
        (some ⟨100, some "u", "U", none⟩) "2026-02-22T10:00:00"
        ContentKind.photo none (some "cap") none none
        [⟨"p1", some 9, 3, 3⟩] none none none none none none none [] none none none)
      rfl).1⟩

/-! ## C8: member-joined fan-out -/

/-- The Event row recorded for one joining member. -/
def memberJoinedRow (chatId : Int) (date : String) (u : TgUser) : EventRow :=
  ⟨chatId, some u.id, "member_joined", event_data_json (some (memberData u)), date⟩

theorem processNewMembers_events (mems : List TgUser) :
    ∀ (db : Db) (chatId : Int) (date : String),
      (processNewMembers db chatId date mems).events
        = db.events ++ mems.map (memberJoinedRow chatId date) := by
  induction mems with
  | nil =>
    intro db chatId date
    simp [processNewMembers]
  | cons u rest ih =>
    intro db chatId date
    rw [processNewMembers, ih]
    show ({ db with users := upsert_user db.users u.id u.username (some u.firstName) u.lastName }.events
        ++ [memberJoinedRow chatId date u]) ++ rest.map (memberJoinedRow chatId date)
      = db.events ++ (memberJoinedRow chatId date u :: rest.map (memberJoinedRow chatId date))
    rw [List.append_assoc]
    rfl

/-- C8 (confirmed): a new-members service event with members list `mems`
appends exactly `mems.length` Event rows of type `"member_joined"`, one per
member in order, each carrying that member's user id and a data blob
serializing that member's username and first name. -/
theorem C8_member_joined_fanout (db : Db) (m : TgMessage)
    (h : m.newChatMembers ≠ []) :
    (on_service db m).events
      = db.events ++ m.newChatMembers.map (memberJoinedRow m.chat.id m.date) ∧
    (on_service db m).events.length = db.events.length + m.newChatMembers.length ∧
    (∀ u ∈ m.newChatMembers,
      (memberJoinedRow m.chat.id m.date u).etype = "member_joined" ∧
      (memberJoinedRow m.chat.id m.date u).userId = some u.id ∧
      (memberJoinedRow m.chat.id m.date u).data
        = some (jsonDumps [("username", u.username.map JVal.str),
            ("first_name", some (JVal.str u.firstName))])) := by
  have hie : m.newChatMembers.isEmpty = false := by
    cases hm : m.newChatMembers with
    | nil => exact absurd hm h
    | cons a l => rfl
  obtain ⟨_, h2, _, _⟩ := save_chat_and_user_fields db m
  have hev : (on_service db m).events
      = db.events ++ m.newChatMembers.map (memberJoinedRow m.chat.id m.date) := by
    unfold on_service
    rw [hie]
    show (processNewMembers (save_chat_and_user db m) m.chat.id m.date
        m.newChatMembers).events
      = db.events ++ m.newChatMembers.map (memberJoinedRow m.chat.id m.date)
    rw [processNewMembers_events, h2]
  refine ⟨hev, ?_, ?_⟩
  · rw [hev]
    simp
  · intro u _
    exact ⟨rfl, rfl, rfl⟩

/-- C8 witness: a membership event carrying two members produces the two
`member_joined` rows. -/
theorem C8_witness :
    ((TgMessage.mk 7 ⟨-1001, some "G", "supergroup"⟩ none "2026-02-22T10:00:00"
        ContentKind.newChatMembers none none none none [] none none none none
        none none none [⟨200, some "newguy", "New", some "Guy"⟩, ⟨201, none, "Second", none⟩]
        none none none).newChatMembers ≠ []) ∧
    (on_service emptyDb
        (TgMessage.mk 7 ⟨-1001, some "G", "supergroup"⟩ none "2026-02-22T10:00:00"
          ContentKind.newChatMembers none none none none [] none none none none
          none none none [⟨200, some "newguy", "New", some "Guy"⟩, ⟨201, none, "Second", none⟩]
          none none none)).events
      = emptyDb.events ++
        ([⟨200, some "newguy", "New", some "Guy"⟩, ⟨201, none, "Second", none⟩] : List TgUser).map
          (memberJoinedRow (-1001) "2026-02-22T10:00:00") :=
  ⟨by decide,
    (C8_member_joined_fanout emptyDb
      (TgMessage.mk 7 ⟨-1001, some "G", "supergroup"⟩ none "2026-02-22T10:00:00"
        ContentKind.newChatMembers none none none none [] none none none none
        none none none [⟨200, some "newguy", "New", some "Guy"⟩, ⟨201, none, "Second", none⟩]
        none none none) (by decide)).1⟩

/-! ## C9: photo size selection -/

/-- The comparable size of a photo resolution entry (its optional
`file_size`, defaulting to 0 when the platform omits it). -/
def photoSizeVal (p : PhotoSize) : Int :=
  p.fileSize.getD 0

/-- A photo message whose resolution list is ordered largest-first — the
reverse of the platform's delivery order. -/
def cexPhotoMsg : TgMessage :=
  TgMessage.mk 1 ⟨-1001, some "G", "supergroup"⟩ none "2026-02-22T10:00:00"
    ContentKind.photo none none none none
    [⟨"big", some 100, 10, 10⟩, ⟨"small", some 50, 5, 5⟩]
    none none none none none none none [] none none none

/-- C9 counterexample: on a photo list holding a 100-byte entry before a
50-byte entry, extraction returns the 50-byte entry's file reference and
metadata — the last element, not the element with the greatest size. -/
theorem C9_counterexample :
    cexPhotoMsg.photo = [⟨"big", some 100, 10, 10⟩, ⟨"small", some 50, 5, 5⟩] ∧
    extract_media_meta cexPhotoMsg
      = (some "small", some (photoMeta ⟨"small", some 50, 5, 5⟩), "photo") ∧
    photoSizeVal ⟨"small", some 50, 5, 5⟩ < photoSizeVal ⟨"big", some 100, 10, 10⟩ := by
  refine ⟨rfl, rfl, by decide⟩

theorem chain_le_getLast : ∀ (l : List PhotoSize) (h : l ≠ []),
    List.Chain' (fun a b => photoSizeVal a ≤ photoSizeVal b) l →
    ∀ p ∈ l, photoSizeVal p ≤ photoSizeVal (l.getLast h)
  | [], h, _, _, _ => absurd rfl h
  | [x], _, _, p, hp => by
    rcases List.mem_singleton.mp hp with rfl
    exact le_refl _
  | x :: y :: rest, h, hc, p, hp => by
    have hc' := List.chain'_cons.mp hc
    have ihy := chain_le_getLast (y :: rest) (by simp) hc'.2
    have hlast : (x :: y :: rest).getLast h = (y :: rest).getLast (by simp) :=
      List.getLast_cons (by simp)
    rw [hlast]
    rcases List.mem_cons.mp hp with rfl | hp'
    · exact le_trans hc'.1 (ihy y (List.mem_cons_self y rest))
    · exact ihy p hp'

/-- C9 (amended): extraction on a non-empty photo list returns the file
reference and size/width/height metadata of the LAST list element; when the
list is sorted by size in non-decreasing order (the platform's delivery
order for available resolutions), that element has the greatest size. -/
theorem C9_photo_largest (m : TgMessage) (h1 : m.contentType = ContentKind.photo)
    (h2 : m.photo ≠ [])
    (hsort : List.Chain' (fun a b => photoSizeVal a ≤ photoSizeVal b) m.photo) :
    extract_media_meta m
      = (some (m.photo.getLast h2).fileId,
         some (photoMeta (m.photo.getLast h2)), "photo") ∧
    ∀ p ∈ m.photo, photoSizeVal p ≤ photoSizeVal (m.photo.getLast h2) := by
  refine ⟨?_, chain_le_getLast m.photo h2 hsort⟩
  unfold extract_media_meta
  rw [h1, List.getLast?_eq_getLast m.photo h2]

/-- C9 witness: the amended theorem applied to a two-element photo list
sorted by increasing size. -/
theorem C9_witness :
    ((TgMessage.mk 2 ⟨-1001, some "G", "supergroup"⟩ none "2026-02-22T10:00:00"
        ContentKind.photo none none none none
        [⟨"lo", some 10, 1, 1⟩, ⟨"hi", some 90, 9, 9⟩]
        none none none none none none none [] none none none).contentType
      = ContentKind.photo) ∧
    extract_media_meta
        (TgMessage.mk 2 ⟨-1001, some "G", "supergroup"⟩ none "2026-02-22T10:00:00"
          ContentKind.photo none none none none
          [⟨"lo", some 10, 1, 1⟩, ⟨"hi", some 90, 9, 9⟩]
          none none none none none none none [] none none none)
      = (some
          (((TgMessage.mk 2 ⟨-1001, some "G", "supergroup"⟩ none "2026-02-22T10:00:00"
            ContentKind.photo none none none none
            [⟨"lo", some 10, 1, 1⟩, ⟨"hi", some 90, 9, 9⟩]
            none none none none none none none [] none none none).photo.getLast
              (by decide)).fileId),
         some (photoMeta
          ((TgMessage.mk 2 ⟨-1001, some "G", "supergroup"⟩ none "2026-02-22T10:00:00"
            ContentKind.photo none none none none
            [⟨"lo", some 10, 1, 1⟩, ⟨"hi", some 90, 9, 9⟩]
            none none none none none none none [] none none none).photo.getLast
              (by decide))), "photo") :=
  ⟨rfl,
    (C9_photo_largest
      (TgMessage.mk 2 ⟨-1001, some "G", "supergroup"⟩ none "2026-02-22T10:00:00"
        ContentKind.photo none none none none
        [⟨"lo", some 10, 1, 1⟩, ⟨"hi", some 90, 9, 9⟩]
        none none none none none none none [] none none none)
      rfl (by decide)
      (List.chain'_cons.mpr ⟨by decide, List.chain'_singleton _⟩)).1⟩

/-! ## C1: write-time referential integrity -/

/-- The chat referenced by an activity row exists. -/
def chatRefOk (db : Db) (cid : Int) : Bool :=
  hasKey db.chats cid

/-- The user referenced by an activity row exists (vacuous for NULL). -/
def userRefOk (db : Db) : Option Int → Bool
  | none => true
  | some uid => hasKey db.users uid

/-- Write-time referential integrity exactly as the claim states it: every
Message and every Event row references an existing Chat row, and an existing
User row whenever its user reference is non-null — including `member_left`
Event rows. -/
def dbRefsOk (db : Db) : Prop :=
  (∀ r ∈ db.messages, chatRefOk db r.chatId = true ∧ userRefOk db r.userId = true) ∧
  (∀ e ∈ db.events, chatRefOk db e.chatId = true ∧ userRefOk db e.userId = true)

/-- Amended integrity: as above, except that `member_left` Event rows are
exempt from the user-row requirement (the handler upserts only the sender,
not the departing member). -/
def dbRefsOkA (db : Db) : Prop :=
  (∀ r ∈ db.messages, chatRefOk db r.chatId = true ∧ userRefOk db r.userId = true) ∧
  (∀ e ∈ db.events, chatRefOk db e.chatId = true ∧
    (e.etype ≠ "member_left" → userRefOk db e.userId = true))

theorem userRefOk_mono (db db' : Db)
    (hu : ∀ k, hasKey db.users k = true → hasKey db'.users k = true)
    (uid : Option Int) (hok : userRefOk db uid = true) :
    userRefOk db' uid = true := by
  cases uid with
  | none => rfl
  | some u => exact hu u hok

theorem dbRefsOkA_of_keysMono (db db' : Db)
    (hm : db'.messages = db.messages) (he : db'.events = db.events)
    (hc : ∀ k, hasKey db.chats k = true → hasKey db'.chats k = true)
    (hu : ∀ k, hasKey db.users k = true → hasKey db'.users k = true)
    (h : dbRefsOkA db) : dbRefsOkA db' := by
  obtain ⟨h1, h2⟩ := h
  constructor
  · intro r hr
    rw [hm] at hr
    obtain ⟨hch, hus⟩ := h1 r hr
    exact ⟨hc _ hch, userRefOk_mono db db' hu r.userId hus⟩
  · intro e he'
    rw [he] at he'
    obtain ⟨hch, hus⟩ := h2 e he'
    exact ⟨hc _ hch, fun hne => userRefOk_mono db db' hu e.userId (hus hne)⟩

theorem dbRefsOkA_insert_message (db : Db) (msgId chatId : Int)
    (userId : Option Int) (date mtype : String) (text mediaFileId : Option String)
    (mediaMeta : Option JMap) (replyTo fwdFrom : Option Int)
    (fwdName : Option String) (isEdit : Bool) (h : dbRefsOkA db)
    (hch : chatRefOk db chatId = true) (hus : userRefOk db userId = true) :
    dbRefsOkA (insert_message db msgId chatId userId date mtype text mediaFileId
      mediaMeta replyTo fwdFrom fwdName isEdit) := by
  obtain ⟨h1, h2⟩ := h
  constructor
  · intro r hr
    rcases List.mem_append.mp hr with hold | hnew
    · exact h1 r hold
    · rcases List.mem_singleton.mp hnew with rfl
      exact ⟨hch, hus⟩
  · intro e he'
    exact h2 e he'

theorem dbRefsOkA_insert_event (db : Db) (chatId : Int) (etype date : String)
    (userId : Option Int) (data : Option JMap) (h : dbRefsOkA db)
    (hch : chatRefOk db chatId = true)
    (hus : etype ≠ "member_left" → userRefOk db userId = true) :
    dbRefsOkA (insert_event db chatId etype date userId data) := by
  obtain ⟨h1, h2⟩ := h
  constructor
  · intro r hr
    exact h1 r hr
  · intro e he'
    rcases List.mem_append.mp he' with hold | hnew
    · exact h2 e hold
    · rcases List.mem_singleton.mp hnew with rfl
      exact ⟨hch, hus⟩

theorem dbRefsOkA_commit (db : Db) (h : dbRefsOkA db) : dbRefsOkA (commit db) :=
  h

theorem dbRefsOkA_save (db : Db) (m : TgMessage) (h : dbRefsOkA db) :
    dbRefsOkA (save_chat_and_user db m) ∧
    chatRefOk (save_chat_and_user db m) m.chat.id = true ∧
    userRefOk (save_chat_and_user db m) (m.fromUser.map (fun u => u.id)) = true ∧
    (∀ k, hasKey db.chats k = true → hasKey (save_chat_and_user db m).chats k = true) ∧
    (∀ k, hasKey db.users k = true → hasKey (save_chat_and_user db m).users k = true) := by
  unfold save_chat_and_user
  cases hf : m.fromUser with
  | none =>
    refine ⟨?_, ?_, rfl, ?_, fun k hk => hk⟩
    · exact dbRefsOkA_of_keysMono db _ rfl rfl
        (fun k hk => hasKey_upsertRow_mono db.chats m.chat.id k _ hk)
        (fun k hk => hk) h
    · exact hasKey_upsertRow_self db.chats m.chat.id _
    · exact fun k hk => hasKey_upsertRow_mono db.chats m.chat.id k _ hk
  | some u =>
    refine ⟨?_, ?_, ?_, ?_, ?_⟩
    · exact dbRefsOkA_of_keysMono db _ rfl rfl
        (fun k hk => hasKey_upsertRow_mono db.chats m.chat.id k _ hk)
        (fun k hk => hasKey_upsertRow_mono db.users u.id k _ hk) h
    · exact hasKey_upsertRow_self db.chats m.chat.id _
    · exact hasKey_upsertRow_self _ u.id _
    · exact fun k hk => hasKey_upsertRow_mono db.chats m.chat.id k _ hk
    · exact fun k hk => hasKey_upsertRow_mono db.users u.id k _ hk

theorem dbRefsOkA_log_message (db : Db) (m : TgMessage) (mtype : String)
    (text mediaFileId : Option String) (mediaMeta : Option JMap) (isEdit : Bool)
    (h : dbRefsOkA db) (hch : chatRefOk db m.chat.id = true)
    (hus : userRefOk db (m.fromUser.map (fun u => u.id)) = true) :
    dbRefsOkA (log_message db m mtype text mediaFileId mediaMeta isEdit) := by
  unfold log_message
  exact dbRefsOkA_commit _
    (dbRefsOkA_insert_message db m.messageId m.chat.id
      (m.fromUser.map (fun u => u.id)) m.date mtype text mediaFileId mediaMeta
      m.replyTo _ _ isEdit h hch hus)

theorem dbRefsOkA_processNewMembers (mems : List TgUser) :
    ∀ (db : Db) (chatId : Int) (date : String), dbRefsOkA db →
      chatRefOk db chatId = true →
      dbRefsOkA (processNewMembers db chatId date mems) := by
  induction mems with
  | nil =>
    intro db chatId date h _
    exact h
  | cons u rest ih =>
    intro db chatId date h hch
    rw [processNewMembers]
    refine ih _ chatId date ?_ ?_
    · refine dbRefsOkA_insert_event _ chatId "member_joined" date (some u.id)
        (some (memberData u)) ?_ hch ?_
      · exact dbRefsOkA_of_keysMono db _ rfl rfl (fun k hk => hk)
          (fun k hk => hasKey_upsertRow_mono db.users u.id k _ hk) h
      · intro _
        exact hasKey_upsertRow_self db.users u.id _
    · exact hch

/-- C1 (amended): every handler preserves write-time referential integrity
for all Message rows and for all Event rows other than `member_left` — the
referenced Chat row and (for non-null user references) User row exist or are
created within the same handler run before the activity row is committed;
only the user referenced by a `member_left` Event row is exempt. -/
theorem C1_ref_integrity_amended (cfg : Config) (db : Db) (inb : Inbound)
    (h : dbRefsOkA db) : dbRefsOkA (handle cfg db inb) := by
  cases inb with
  | text m =>
    obtain ⟨h1, h2, h3, _, _⟩ := dbRefsOkA_save db m h
    exact dbRefsOkA_log_message _ m _ _ _ _ _ h1 h2 h3
  | media m download =>
    obtain ⟨h1, h2, h3, _, _⟩ := dbRefsOkA_save db m h
    show dbRefsOkA (on_media cfg db m download)
    unfold on_media
    by_cases hc : (cfg.downloadMedia && (extract_media_meta m).1.isSome) = true
    · simp only [hc, if_true]
      cases download with
      | none =>
        exact dbRefsOkA_log_message _ m _ _ _ _ _ h1 h2 h3
      | some remotePath =>
        refine dbRefsOkA_log_message _ m _ _ _ _ _ ?_ h2 h3
        exact dbRefsOkA_of_keysMono (save_chat_and_user db m) _ rfl rfl
          (fun k hk => hk) (fun k hk => hk) h1
    · simp only [hc, if_false]
      exact dbRefsOkA_log_message _ m _ _ _ _ _ h1 h2 h3
  | service m =>
    obtain ⟨h1, h2, h3, _, _⟩ := dbRefsOkA_save db m h
    show dbRefsOkA (on_service db m)
    unfold on_service
    refine dbRefsOkA_commit _ ?_
    by_cases hmem : m.newChatMembers.isEmpty = true
    · rw [if_pos hmem]
      cases m.leftChatMember with
      | some u =>
        exact dbRefsOkA_insert_event _ m.chat.id "member_left" m.date (some u.id)
          (some (memberData u)) h1 h2 (fun hne => absurd rfl hne)
      | none =>
        dsimp only
        cases m.newChatTitle with
        | some t =>
          dsimp only
          by_cases ht : (t == "") = true
          · rw [if_pos ht]
            cases m.pinnedMessageId with
            | some pid =>
              exact dbRefsOkA_insert_event _ m.chat.id "message_pinned" m.date
                (m.fromUser.map (fun u => u.id)) _ h1 h2 (fun _ => h3)
            | none => exact h1
          · rw [if_neg ht]
            refine dbRefsOkA_insert_event _ m.chat.id "title_changed" m.date
              (m.fromUser.map (fun u => u.id)) _ ?_ ?_ ?_
            · exact dbRefsOkA_of_keysMono (save_chat_and_user db m) _ rfl rfl
                (fun k hk => hasKey_upsertRow_mono _ m.chat.id k _ hk)
                (fun k hk => hk) h1
            · exact hasKey_upsertRow_self _ m.chat.id _
            · intro _
              exact userRefOk_mono (save_chat_and_user db m) _ (fun k hk => hk) _ h3
        | none =>
          dsimp only
          cases m.pinnedMessageId with
          | some pid =>
            exact dbRefsOkA_insert_event _ m.chat.id "message_pinned" m.date
              (m.fromUser.map (fun u => u.id)) _ h1 h2 (fun _ => h3)
          | none => exact h1
    · rw [if_neg hmem]
      exact dbRefsOkA_processNewMembers m.newChatMembers _ m.chat.id m.date h1 h2
  | editedText m =>
    obtain ⟨h1, h2, h3, _, _⟩ := dbRefsOkA_save db m h
    exact dbRefsOkA_log_message _ m _ _ _ _ _ h1 h2 h3
  | editedMedia m =>
    obtain ⟨h1, h2, h3, _, _⟩ := dbRefsOkA_save db m h
    exact dbRefsOkA_log_message _ m _ _ _ _ _ h1 h2 h3
  | other m =>
    obtain ⟨h1, h2, h3, _, _⟩ := dbRefsOkA_save db m h
    exact dbRefsOkA_log_message _ m _ _ _ _ _ h1 h2 h3

/-- A service event in which an admin (user 10) removes member 20: the
`member_left` Event row will reference user 20, whom no branch upserts. -/
def kickMsg : TgMessage :=
  TgMessage.mk 5 ⟨1, some "G", "supergroup"⟩ (some ⟨10, none, "Admin", none⟩)
    "2026-02-22T10:00:00" ContentKind.leftChatMember none none none none []
    none none none none none none none [] (some ⟨20, some "bob", "Bob", none⟩)
    none none

/-- C1 counterexample: starting from an empty (trivially intact) database,
processing a `left_chat_member` service event whose departing member differs
from the sender writes a `member_left` Event row referencing user 20 while
only the sender (user 10) is upserted — the claimed invariant, which
explicitly includes the user referenced by a `member_left` Event row, is
violated. -/
theorem C1_counterexample :
    dbRefsOk emptyDb ∧
    ¬ dbRefsOk (handle (Config.mk false "media") emptyDb (Inbound.service kickMsg)) := by
  constructor
  · unfold dbRefsOk
    decide
  · unfold dbRefsOk
    decide

/-- C1 witness: the amended preservation theorem applied to a concrete text
message on the empty database. -/
theorem C1_witness :
    dbRefsOkA emptyDb ∧
    dbRefsOkA (handle (Config.mk false "media") emptyDb
      (Inbound.text (TgMessage.mk 1 ⟨-1001, some "G", "supergroup"⟩
        (some ⟨100, some "u", "U", none⟩) "2026-02-22T10:00:00" ContentKind.text
        (some "Hello world") none none none [] none none none none none none
        none [] none none none))) :=
  ⟨by unfold dbRefsOkA; decide,
    C1_ref_integrity_amended (Config.mk false "media") emptyDb
      (Inbound.text (TgMessage.mk 1 ⟨-1001, some "G", "supergroup"⟩
        (some ⟨100, some "u", "U", none⟩) "2026-02-22T10:00:00" ContentKind.text
        (some "Hello world") none none none [] none none none none none none
        none [] none none none))
      (by unfold dbRefsOkA; decide)⟩

end TgLogger
